import Mathlib

/-!
Shallow embedding of `prometheus.go` from spl0i7/prometheus-middleware.

The source has two parts: `NewPrometheusMiddleware` (metric registry
binding) and `InstrumentHandlerDuration` together with
`responseWriterDelegator` (the instrumenting handler wrapper).  We model
byte slices as `List Nat`, Go `int`/`int64` status codes and sizes as
`Int` (byte counts reported by writes as `Nat`), and the wall-clock
duration observation as an uninterpreted `Int` parameter, since real
time is outside the embedding.
-/

namespace PromMW

/-- An abstract `http.ResponseWriter`: the wrapper receives an arbitrary
response sink (Go interface value) with state type `S`.  `write` returns
the updated sink, the reported byte count `n` and an optional error,
mirroring Go's `Write(b []byte) (int, error)`. -/
structure Sink (S : Type) where
  writeHeader : S → Int → S
  write : S → List Nat → S × Nat × Option String
  setHeader : S → String → String → S

/-- The concrete semantics of `net/http`'s response writer: the first
`WriteHeader` fixes the status (later calls are superfluous and ignored),
and a `Write` before any `WriteHeader` implicitly writes status 200.
`write` reports the full length of the slice and no error. -/
structure HttpSink where
  status : Int
  wroteHeader : Bool
  headers : List (String × String)
  body : List Nat
deriving DecidableEq, Repr

def HttpSink.hWriteHeader (s : HttpSink) (code : Int) : HttpSink :=
  if s.wroteHeader then s
  else { s with status := code, wroteHeader := true }

def HttpSink.hWrite (s : HttpSink) (b : List Nat) : HttpSink × Nat × Option String :=
  let s1 := if s.wroteHeader then s else s.hWriteHeader 200
  ({ s1 with body := s1.body ++ b }, b.length, none)

def HttpSink.hSetHeader (s : HttpSink) (k v : String) : HttpSink :=
  { s with headers := s.headers ++ [(k, v)] }

def httpSinkOps : Sink HttpSink :=
  ⟨HttpSink.hWriteHeader, HttpSink.hWrite, HttpSink.hSetHeader⟩

/-- A fresh response sink, before anything was written. -/
def emptyHttpSink : HttpSink := ⟨0, false, [], []⟩

/-- `responseWriterDelegator` from the source: embeds the underlying
`http.ResponseWriter` and taps `status`, `written` and `wroteHeader`.
Go zero values: `status = 0`, `written = 0`, `wroteHeader = false`. -/
structure ResponseWriterDelegator (S : Type) where
  responseWriter : S
  status : Int
  written : Nat
  wroteHeader : Bool
deriving DecidableEq, Repr

/-- `delegate := &responseWriterDelegator{ResponseWriter: w}`. -/
def freshDelegator {S : Type} (w : S) : ResponseWriterDelegator S :=
  ⟨w, 0, 0, false⟩

/-- `func (r *responseWriterDelegator) WriteHeader(code int)`:
records the code, marks the header written, forwards the call. -/
def ResponseWriterDelegator.WriteHeader {S : Type} (sink : Sink S)
    (r : ResponseWriterDelegator S) (code : Int) : ResponseWriterDelegator S :=
  { responseWriter := sink.writeHeader r.responseWriter code
    status := code
    written := r.written
    wroteHeader := true }

/-- `func (r *responseWriterDelegator) Write(b []byte) (int, error)`:
synthesizes `WriteHeader(200)` before the first write if no explicit
header-set happened, forwards the write, accumulates the reported `n`
and returns `(n, err)` unchanged. -/
def ResponseWriterDelegator.Write {S : Type} (sink : Sink S)
    (r : ResponseWriterDelegator S) (b : List Nat) :
    ResponseWriterDelegator S × Nat × Option String :=
  let r1 := if r.wroteHeader then r else r.WriteHeader sink 200
  let out := sink.write r1.responseWriter b
  ({ r1 with responseWriter := out.1, written := r1.written + out.2.1 },
   out.2.1, out.2.2)

/-- The calls an inner handler makes on its response sink. -/
inductive HandlerEvent where
  | writeHeader (code : Int)
  | write (b : List Nat)
  | setHeader (k v : String)
deriving DecidableEq, Repr

/-- Run the inner handler's calls through the delegator, collecting the
`(n, err)` result the handler sees for each of its write calls. -/
def runDelegated {S : Type} (sink : Sink S) :
    List HandlerEvent → ResponseWriterDelegator S →
    ResponseWriterDelegator S × List (Nat × Option String)
  | [], d => (d, [])
  | HandlerEvent.writeHeader c :: es, d =>
      runDelegated sink es (d.WriteHeader sink c)
  | HandlerEvent.write b :: es, d =>
      let out := d.Write sink b
      let rest := runDelegated sink es out.1
      (rest.1, out.2 :: rest.2)
  | HandlerEvent.setHeader k v :: es, d =>
      runDelegated sink es
        { d with responseWriter := sink.setHeader d.responseWriter k v }

/-- Run the same calls directly against the underlying sink, with no
delegator interposed: what the inner handler alone would produce. -/
def runDirect {S : Type} (sink : Sink S) :
    List HandlerEvent → S → S × List (Nat × Option String)
  | [], s => (s, [])
  | HandlerEvent.writeHeader c :: es, s =>
      runDirect sink es (sink.writeHeader s c)
  | HandlerEvent.write b :: es, s =>
      let out := sink.write s b
      let rest := runDirect sink es out.1
      (rest.1, out.2 :: rest.2)
  | HandlerEvent.setHeader k v :: es, s =>
      runDirect sink es (sink.setHeader s k v)

/-- `url.URL`: only the `Path` field is read by the source. -/
structure URL where
  path : String
deriving DecidableEq, Repr

/-- A matched `*mux.Route`.  `GetPathTemplate` returns the template when
the route defines a path, and `("", err)` otherwise; `pathTemplate = none`
models the error case (route without a path, or a route built with an
error). -/
structure Route where
  pathTemplate : Option String
deriving DecidableEq, Repr

/-- The fields of `*http.Request` the source reads.  `matchedRoute`
models `mux.CurrentRoute(r)`: `none` when the request carries no mux
route in its context (nil `*mux.Route`), and `contentLength` is Go's
`int64` with `-1` meaning unknown. -/
structure Request where
  method : String
  url : Option URL
  proto : String
  header : List (String × List String)
  host : String
  contentLength : Int
  matchedRoute : Option Route
deriving DecidableEq, Repr

/-- `func sanitizeMethod(m string) string { return strings.ToLower(m) }`. -/
def sanitizeMethod (m : String) : String := m.toLower

/-- `func sanitizeCode(s int) string { return strconv.Itoa(s) }`:
the decimal string representation of the status code. -/
def sanitizeCode (s : Int) : String := toString s

/-- `func computeApproximateRequestSize(r *http.Request) int`: path
length (0 for a nil URL), method, proto, all header names and values,
host, plus `ContentLength` whenever it differs from `-1`. -/
def computeApproximateRequestSize (r : Request) : Int :=
  let s0 : Int := match r.url with
    | some u => (u.path.length : Int)
    | none => 0
  let s1 := s0 + r.method.length + r.proto.length
  let s2 := r.header.foldl
    (fun acc kv =>
      kv.2.foldl (fun a v => a + (v.length : Int)) (acc + kv.1.length))
    s1
  let s3 := s2 + r.host.length
  if r.contentLength ≠ -1 then s3 + r.contentLength else s3

def requestName : String := "http_requests_total"
def latencyName : String := "http_request_duration_seconds"
def responseSizeName : String := "response_size_bytes"
def requestSizeName : String := "request_size_bytes"

/-- One call on a metric instrument: `Inc()` on the counter has
`value = none`; `Observe(v)` on a histogram has `value = some v`. -/
structure MetricUpdate where
  instrument : String
  code : String
  method : String
  path : String
  value : Option Int
deriving DecidableEq, Repr

/-- The wrapped handler produced by
`func (p *PrometheusMiddleware) InstrumentHandlerDuration(next http.Handler)`,
applied to one request.  The inner handler's calls are `next`; `elapsed`
is the uninterpreted value of `float64(time.Since(begin))/float64(time.Second)`.
The result is the final underlying sink, the `(n, err)` results the inner
handler saw, and the four metric updates.  `none` models the panic that
`route.GetPathTemplate()` raises on the nil `*mux.Route` of an unmatched
request (nothing is recorded then). -/
def InstrumentHandlerDuration {S : Type} (sink : Sink S)
    (next : List HandlerEvent) (elapsed : Int) (r : Request) (w : S) :
    Option (S × List (Nat × Option String) × List MetricUpdate) :=
  let run := runDelegated sink next (freshDelegator w)
  match r.matchedRoute with
  | none => none
  | some route =>
    let path := route.pathTemplate.getD ""
    let code := sanitizeCode run.1.status
    let method := sanitizeMethod r.method
    some (run.1.responseWriter, run.2,
      [ ⟨requestName, code, method, path, none⟩,
        ⟨latencyName, code, method, path, some elapsed⟩,
        ⟨requestSizeName, code, method, path,
          some (computeApproximateRequestSize r)⟩,
        ⟨responseSizeName, code, method, path,
          some (Int.ofNat run.1.written)⟩ ])

/-- `Opts`: custom histogram buckets and optional subsystem.  Bucket
boundaries are Go `float64` values; they are only carried around and
compared, never computed with, so we model them as rationals. -/
structure Opts where
  buckets : List Rat
  subsystem : String
deriving DecidableEq, Repr

/-- `dflBuckets = []float64{0.3, 1.0, 2.5, 5.0}`. -/
def dflBuckets : List Rat := [3/10, 1, 5/2, 5]

inductive MetricKind where
  | counter
  | histogram (buckets : List Rat)
deriving DecidableEq, Repr

/-- A constructed collector: its fully-qualified name (after any
subsystem prefixing), its label dimensions, and its kind. -/
structure Instrument where
  name : String
  labelNames : List String
  kind : MetricKind
deriving DecidableEq, Repr

structure PrometheusMiddleware where
  request : Instrument
  latency : Instrument
  reqSize : Instrument
  resSize : Instrument
deriving DecidableEq, Repr

/-- The default prometheus registry, abstracted to the set of collector
names registered so far. -/
structure Registry where
  names : List String
deriving DecidableEq, Repr

/-- `prometheus.Register`: fails (with `AlreadyRegisteredError`) when a
collector of the same name is already registered, leaving the registry
unchanged; otherwise adds the name. -/
def registerCollector (reg : Registry) (name : String) :
    Registry × Option String :=
  if name ∈ reg.names then
    (reg, some ("duplicate metrics collector registration attempted " ++ name))
  else
    ({ names := reg.names ++ [name] }, none)

/-- `prometheus.BuildFQName` with an empty namespace: the subsystem is
joined to the name with `_` when non-empty. -/
def buildFQName (subsystem name : String) : String :=
  if subsystem = "" then name else subsystem ++ "_" ++ name

/-- `func NewPrometheusMiddleware(opts Opts) *PrometheusMiddleware`,
with the registry passed explicitly.  Faithful to the source: the
counter and the latency histogram set `Subsystem: opts.Subsystem`, while
`reqSizeOpts` and `resSizeOpts` leave `Subsystem` empty; a failed
registration is only logged (one log line per failed instrument) and
construction always completes. -/
def NewPrometheusMiddleware (opts : Opts) (reg : Registry) :
    PrometheusMiddleware × Registry × List String :=
  let labels := ["code", "method", "path"]
  let req : Instrument :=
    ⟨buildFQName opts.subsystem requestName, labels, MetricKind.counter⟩
  let r1 := registerCollector reg req.name
  let log1 := match r1.2 with
    | some m => ["prometheusMiddleware.request was not registered: " ++ m]
    | none => []
  let buckets := if opts.buckets.isEmpty then dflBuckets else opts.buckets
  let lat : Instrument :=
    ⟨buildFQName opts.subsystem latencyName, labels, MetricKind.histogram buckets⟩
  let r2 := registerCollector r1.1 lat.name
  let log2 := match r2.2 with
    | some m => ["prometheusMiddleware.latency was not registered: " ++ m]
    | none => []
  let reqSize : Instrument :=
    ⟨requestSizeName, labels, MetricKind.histogram buckets⟩
  let r3 := registerCollector r2.1 reqSize.name
  let log3 := match r3.2 with
    | some m => ["prometheusMiddleware.reqSize was not registered: " ++ m]
    | none => []
  let resSize : Instrument :=
    ⟨responseSizeName, labels, MetricKind.histogram buckets⟩
  let r4 := registerCollector r3.1 resSize.name
  let log4 := match r4.2 with
    | some m => ["prometheusMiddleware.resSize was not registered: " ++ m]
    | none => []
  (⟨req, lat, reqSize, resSize⟩, r4.1, log1 ++ log2 ++ log3 ++ log4)

/-- Does the handler make any explicit `WriteHeader` call? -/
def hasWriteHeaderEvent : List HandlerEvent → Bool
  | [] => false
  | HandlerEvent.writeHeader _ :: _ => true
  | _ :: es => hasWriteHeaderEvent es

/-- Does the handler make any `Write` call? -/
def hasWriteEvent : List HandlerEvent → Bool
  | [] => false
  | HandlerEvent.write _ :: _ => true
  | _ :: es => hasWriteEvent es

/-- The code of the handler's last explicit `WriteHeader` call, if any. -/
def lastExplicitStatus : List HandlerEvent → Option Int
  | [] => none
  | HandlerEvent.writeHeader c :: es =>
      match lastExplicitStatus es with
      | some c2 => some c2
      | none => some c
  | _ :: es => lastExplicitStatus es

/-- The status the delegator ends up holding for a handler run from a
fresh delegator: the last explicitly set code; failing that, 200 when at
least one write occurred, and the zero value 0 otherwise. -/
def recordedStatus (es : List HandlerEvent) : Int :=
  (lastExplicitStatus es).getD (if hasWriteEvent es then 200 else 0)

theorem runDelegated_status_of_wroteHeader {S : Type} (sink : Sink S)
    (es : List HandlerEvent) (d : ResponseWriterDelegator S)
    (h : d.wroteHeader = true) :
    (runDelegated sink es d).1.status = (lastExplicitStatus es).getD d.status ∧
      (runDelegated sink es d).1.wroteHeader = true := by
  induction es generalizing d with
  | nil => simp [runDelegated, lastExplicitStatus, h]
  | cons e es ih =>
    cases e with
    | writeHeader c =>
      have := ih (d.WriteHeader sink c) rfl
      simp only [runDelegated, ResponseWriterDelegator.WriteHeader] at this ⊢
      rcases this with ⟨h1, h2⟩
      refine ⟨?_, h2⟩
      rw [h1]
      simp only [lastExplicitStatus]
      cases lastExplicitStatus es <;> simp
    | write b =>
      have hd : (d.Write sink b).1.wroteHeader = true := by
        simp [ResponseWriterDelegator.Write, h]
      have := ih (d.Write sink b).1 hd
      simp only [runDelegated] at this ⊢
      rcases this with ⟨h1, h2⟩
      refine ⟨?_, h2⟩
      rw [h1]
      have hs : (d.Write sink b).1.status = d.status := by
        simp [ResponseWriterDelegator.Write, h]
      rw [hs]
      simp [lastExplicitStatus]
    | setHeader k v =>
      have := ih { d with responseWriter := sink.setHeader d.responseWriter k v } h
      simp only [runDelegated] at this ⊢
      rcases this with ⟨h1, h2⟩
      exact ⟨by rw [h1]; simp [lastExplicitStatus], h2⟩

theorem runDelegated_status_fresh {S : Type} (sink : Sink S)
    (es : List HandlerEvent) (d : ResponseWriterDelegator S)
    (h : d.wroteHeader = false) :
    (runDelegated sink es d).1.status =
      (lastExplicitStatus es).getD (if hasWriteEvent es then 200 else d.status) := by
  induction es generalizing d with
  | nil => simp [runDelegated, lastExplicitStatus, hasWriteEvent]
  | cons e es ih =>
    cases e with
    | writeHeader c =>
      have := runDelegated_status_of_wroteHeader sink es (d.WriteHeader sink c) rfl
      simp only [runDelegated, ResponseWriterDelegator.WriteHeader] at this ⊢
      rw [this.1]
      simp only [lastExplicitStatus]
      cases lastExplicitStatus es <;> simp
    | write b =>
      have hd : (d.Write sink b).1.wroteHeader = true := by
        simp [ResponseWriterDelegator.Write, h, ResponseWriterDelegator.WriteHeader]
      have hs : (d.Write sink b).1.status = 200 := by
        simp [ResponseWriterDelegator.Write, h, ResponseWriterDelegator.WriteHeader]
      have := runDelegated_status_of_wroteHeader sink es (d.Write sink b).1 hd
      simp only [runDelegated] at this ⊢
      rw [this.1, hs]
      simp [lastExplicitStatus, hasWriteEvent]
    | setHeader k v =>
      have := ih { d with responseWriter := sink.setHeader d.responseWriter k v } h
      simp only [runDelegated] at this ⊢
      rw [this]
      simp [lastExplicitStatus, hasWriteEvent]

theorem runDelegated_written {S : Type} (sink : Sink S)
    (es : List HandlerEvent) (d : ResponseWriterDelegator S) :
    (runDelegated sink es d).1.written =
      d.written + ((runDelegated sink es d).2.map Prod.fst).sum := by
  induction es generalizing d with
  | nil => simp [runDelegated]
  | cons e es ih =>
    cases e with
    | writeHeader c =>
      simp only [runDelegated]
      rw [ih]
      simp [ResponseWriterDelegator.WriteHeader]
    | write b =>
      simp only [runDelegated, List.map_cons, List.sum_cons]
      rw [ih]
      have hw : (d.Write sink b).1.written = d.written + (d.Write sink b).2.1 := by
        by_cases h : d.wroteHeader <;>
          simp [ResponseWriterDelegator.Write, ResponseWriterDelegator.WriteHeader, h]
      rw [hw]
      ring
    | setHeader k v =>
      simp only [runDelegated]
      rw [ih]

theorem hWriteHeader_wroteHeader (s : HttpSink) (c : Int) :
    (s.hWriteHeader c).wroteHeader = true := by
  by_cases h : s.wroteHeader <;> simp [HttpSink.hWriteHeader, h]

theorem delegator_write_step (d : ResponseWriterDelegator HttpSink) (b : List Nat)
    (h : d.wroteHeader = d.responseWriter.wroteHeader) :
    (d.Write httpSinkOps b).1.responseWriter = (d.responseWriter.hWrite b).1 ∧
      (d.Write httpSinkOps b).2 = (d.responseWriter.hWrite b).2 ∧
      (d.Write httpSinkOps b).1.wroteHeader =
        (d.Write httpSinkOps b).1.responseWriter.wroteHeader := by
  by_cases hw : d.wroteHeader
  · have hs : d.responseWriter.wroteHeader = true := by rw [← h]; exact hw
    simp [ResponseWriterDelegator.Write, httpSinkOps, HttpSink.hWrite, hw, hs]
  · have hs : d.responseWriter.wroteHeader = false := by
      rw [← h]; exact Bool.eq_false_iff.mpr hw
    simp [ResponseWriterDelegator.Write, ResponseWriterDelegator.WriteHeader,
      httpSinkOps, HttpSink.hWrite, HttpSink.hWriteHeader, hw, hs]

theorem runDelegated_eq_runDirect (es : List HandlerEvent)
    (d : ResponseWriterDelegator HttpSink)
    (h : d.wroteHeader = d.responseWriter.wroteHeader) :
    (runDelegated httpSinkOps es d).1.responseWriter =
        (runDirect httpSinkOps es d.responseWriter).1 ∧
      (runDelegated httpSinkOps es d).2 =
        (runDirect httpSinkOps es d.responseWriter).2 := by
  induction es generalizing d with
  | nil => exact ⟨rfl, rfl⟩
  | cons e es ih =>
    cases e with
    | writeHeader c =>
      have inv : (d.WriteHeader httpSinkOps c).wroteHeader =
          (d.WriteHeader httpSinkOps c).responseWriter.wroteHeader := by
        simp [ResponseWriterDelegator.WriteHeader, httpSinkOps,
          hWriteHeader_wroteHeader]
      have := ih (d.WriteHeader httpSinkOps c) inv
      simpa [runDelegated, runDirect, ResponseWriterDelegator.WriteHeader,
        httpSinkOps] using this
    | write b =>
      obtain ⟨e1, e2, e3⟩ := delegator_write_step d b h
      have := ih (d.Write httpSinkOps b).1 e3
      simp only [runDelegated, runDirect]
      refine ⟨?_, ?_⟩
      · rw [this.1, e1]
        simp [httpSinkOps]
      · rw [this.2, e1, e2]
        simp [httpSinkOps]
    | setHeader k v =>
      have inv : d.wroteHeader =
          (HttpSink.hSetHeader d.responseWriter k v).wroteHeader := by
        rw [h]; simp [HttpSink.hSetHeader]
      have := ih { d with responseWriter := httpSinkOps.setHeader d.responseWriter k v }
        (by simpa [httpSinkOps] using inv)
      simpa [runDelegated, runDirect, httpSinkOps] using this

/-- Total character length of all header names and values, stated as in
the spec (a sum over the header list). -/
def headerLen (hs : List (String × List String)) : Int :=
  (hs.map (fun kv =>
    (kv.1.length : Int) + (kv.2.map (fun v => (v.length : Int))).sum)).sum

/-- The request-size approximation written from the spec's words: path
length + method length + proto length + header names and values + host
length, plus the content-length term exactly when it differs from -1. -/
def approximateRequestSizeSpec (r : Request) : Int :=
  (match r.url with
    | some u => (u.path.length : Int)
    | none => 0) +
  r.method.length + r.proto.length + headerLen r.header + r.host.length +
  (if r.contentLength ≠ -1 then r.contentLength else 0)

theorem foldl_add_length (vs : List String) (a : Int) :
    vs.foldl (fun acc v => acc + (v.length : Int)) a =
      a + (vs.map (fun v => (v.length : Int))).sum := by
  induction vs generalizing a with
  | nil => simp
  | cons v vs ih => simp [List.foldl_cons, ih]; ring

theorem foldl_header_len (hs : List (String × List String)) (a : Int) :
    hs.foldl
        (fun acc kv =>
          kv.2.foldl (fun x v => x + (v.length : Int)) (acc + kv.1.length))
        a =
      a + headerLen hs := by
  induction hs generalizing a with
  | nil => simp [headerLen]
  | cons kv hs ih =>
    rw [List.foldl_cons, foldl_add_length, ih]
    simp only [headerLen, List.map_cons, List.sum_cons]
    ring

theorem computeApproximateRequestSize_eq_spec (r : Request) :
    computeApproximateRequestSize r = approximateRequestSizeSpec r := by
  simp only [computeApproximateRequestSize, approximateRequestSizeSpec]
  rw [foldl_header_len]
  by_cases h : r.contentLength ≠ -1 <;> cases hu : r.url <;> simp [h]

/-- Handler calls used by concrete witnesses: a header-map set, an
implicit-200 write, a (superfluous) explicit header-set, another write. -/
def exEvents : List HandlerEvent :=
  [HandlerEvent.setHeader "Content-Type" "text/plain",
   HandlerEvent.write [104, 105],
   HandlerEvent.writeHeader 500,
   HandlerEvent.write [33]]

def exRoute : Route := ⟨some "/users/\x7bid\x7d"⟩

def exRequest : Request :=
  ⟨"GET", some ⟨"/users/42"⟩, "HTTP/1.1", [("Accept", ["text/plain"])],
   "example.com", -1, some exRoute⟩

/-- A request that was not dispatched through the mux router: its
context carries no route, so `mux.CurrentRoute` returns nil. -/
def noRouteRequest : Request :=
  ⟨"GET", some ⟨"/nope"⟩, "HTTP/1.1", [], "example.com", -1, none⟩

def noRouteRequest2 : Request :=
  ⟨"POST", some ⟨"/other"⟩, "HTTP/1.1", [], "example.com", 4, none⟩

/-- A request whose content length is negative but not -1. -/
def negativeCLRequest : Request :=
  ⟨"GET", some ⟨"/m"⟩, "HTTP/1.1", [], "h", -2, some exRoute⟩

/-- The spec's request-size example: a GET to /metrics with no body and
content-length -1. -/
def metricsRequest : Request :=
  ⟨"GET", some ⟨"/metrics"⟩, "HTTP/1.1", [("Accept", ["*/*"])],
   "localhost:8080", -1, some ⟨some "/metrics"⟩⟩

theorem InstrumentHandlerDuration_eq {S : Type} (sink : Sink S)
    (es : List HandlerEvent) (elapsed : Int) (r : Request) (w : S) (rt : Route)
    (hr : r.matchedRoute = some rt) :
    InstrumentHandlerDuration sink es elapsed r w = some
      ((runDelegated sink es (freshDelegator w)).1.responseWriter,
       (runDelegated sink es (freshDelegator w)).2,
       [ ⟨requestName, sanitizeCode (runDelegated sink es (freshDelegator w)).1.status,
           sanitizeMethod r.method, rt.pathTemplate.getD "", none⟩,
         ⟨latencyName, sanitizeCode (runDelegated sink es (freshDelegator w)).1.status,
           sanitizeMethod r.method, rt.pathTemplate.getD "", some elapsed⟩,
         ⟨requestSizeName, sanitizeCode (runDelegated sink es (freshDelegator w)).1.status,
           sanitizeMethod r.method, rt.pathTemplate.getD "",
           some (computeApproximateRequestSize r)⟩,
         ⟨responseSizeName, sanitizeCode (runDelegated sink es (freshDelegator w)).1.status,
           sanitizeMethod r.method, rt.pathTemplate.getD "",
           some (Int.ofNat (runDelegated sink es (freshDelegator w)).1.written)⟩ ]) := by
  unfold InstrumentHandlerDuration
  rw [hr]

theorem lastExplicitStatus_of_no_writeHeader (es : List HandlerEvent)
    (h : hasWriteHeaderEvent es = false) : lastExplicitStatus es = none := by
  induction es with
  | nil => rfl
  | cons e es ih =>
    cases e with
    | writeHeader c => exact Bool.noConfusion h
    | write b => exact ih h
    | setHeader k v => exact ih h

/-- Claim C1: the wrapped handler delivers to the caller exactly the
response the inner handler alone would produce against the same
underlying sink — same final sink state (status, headers, body bytes)
and the same `(n, err)` results for each write call; the delegator
forwards every call and writes nothing of its own. -/
theorem c1_wrapper_transparent (es : List HandlerEvent) (elapsed : Int)
    (r : Request) (w : HttpSink) (rt : Route)
    (h : w.wroteHeader = false) (hr : r.matchedRoute = some rt) :
    (InstrumentHandlerDuration httpSinkOps es elapsed r w).map
        (fun out => (out.1, out.2.1)) =
      some (runDirect httpSinkOps es w) ∧
    (runDelegated httpSinkOps es (freshDelegator w)).1.responseWriter =
      (runDirect httpSinkOps es w).1 ∧
    (runDelegated httpSinkOps es (freshDelegator w)).2 =
      (runDirect httpSinkOps es w).2 := by
  have main := runDelegated_eq_runDirect es (freshDelegator w)
    (by simp [freshDelegator, h])
  refine ⟨?_, main.1, main.2⟩
  rw [InstrumentHandlerDuration_eq httpSinkOps es elapsed r w rt hr]
  exact congrArg some (Prod.ext main.1 main.2)

theorem c1_wrapper_transparent_witness :
    emptyHttpSink.wroteHeader = false ∧
    (InstrumentHandlerDuration httpSinkOps exEvents 7 exRequest emptyHttpSink).map
        (fun out => (out.1, out.2.1)) =
      some (runDirect httpSinkOps exEvents emptyHttpSink) :=
  ⟨rfl, (c1_wrapper_transparent exEvents 7 exRequest emptyHttpSink exRoute rfl rfl).1⟩

/-- Claim C2 counterexample: a handler that never sets a status and
never writes leaves the delegator's status at the Go zero value 0, so
the code label recorded for it is "0", not "200". -/
theorem c2_counterexample :
    (InstrumentHandlerDuration httpSinkOps [] 0 exRequest emptyHttpSink).map
        (fun out => out.2.2.map MetricUpdate.code) = some ["0", "0", "0", "0"] ∧
      (some ["0", "0", "0", "0"] : Option (List String)) ≠
        some ["200", "200", "200", "200"] := by
  constructor
  · rfl
  · decide

/-- Claim C2 (amended): when the inner handler never explicitly calls
`WriteHeader`, the code label recorded into the metrics is "200" if the
handler made at least one write call, and "0" (the unset zero value) if
it made none. -/
theorem c2_default_status {S : Type} (sink : Sink S) (es : List HandlerEvent)
    (elapsed : Int) (r : Request) (w : S) (rt : Route)
    (hr : r.matchedRoute = some rt) (hn : hasWriteHeaderEvent es = false) :
    ∃ s res upds,
      InstrumentHandlerDuration sink es elapsed r w = some (s, res, upds) ∧
        ∀ u ∈ upds, u.code = if hasWriteEvent es then "200" else "0" := by
  have hst := runDelegated_status_fresh sink es (freshDelegator w) rfl
  rw [lastExplicitStatus_of_no_writeHeader es hn] at hst
  have hc : sanitizeCode (runDelegated sink es (freshDelegator w)).1.status =
      if hasWriteEvent es then "200" else "0" := by
    rw [hst]
    cases hw : hasWriteEvent es <;> simp [sanitizeCode, freshDelegator] <;> decide
  refine ⟨_, _, _, InstrumentHandlerDuration_eq sink es elapsed r w rt hr, ?_⟩
  intro u hu
  simp only [List.mem_cons, List.not_mem_nil, or_false] at hu
  rcases hu with rfl | rfl | rfl | rfl <;> exact hc

theorem c2_default_status_witness :
    hasWriteHeaderEvent [HandlerEvent.write [104, 105]] = false ∧
    ∃ s res upds,
      InstrumentHandlerDuration httpSinkOps [HandlerEvent.write [104, 105]] 3
          exRequest emptyHttpSink = some (s, res, upds) ∧
        ∀ u ∈ upds,
          u.code = if hasWriteEvent [HandlerEvent.write [104, 105]] then "200" else "0" :=
  ⟨rfl, c2_default_status httpSinkOps [HandlerEvent.write [104, 105]] 3
    exRequest emptyHttpSink exRoute rfl rfl⟩

/-- Claim C3 counterexample: for a request with no matched route,
`mux.CurrentRoute` returns a nil route and `route.GetPathTemplate()`
dereferences it: the wrapper panics (modeled as `none`), so metric
recording does not complete with an empty path label. -/
theorem c3_counterexample :
    InstrumentHandlerDuration httpSinkOps [HandlerEvent.write [104]] 1
      noRouteRequest emptyHttpSink = none := rfl

/-- Claim C3 (amended): when a route matched, the path label recorded
into all four instruments is the route's path template, or "" when the
matched route defines no path template; when no route matched, the
wrapper panics on the nil route and records nothing. -/
theorem c3_path_label {S : Type} (sink : Sink S) (es : List HandlerEvent)
    (elapsed : Int) (r : Request) (w : S) (rt : Route)
    (hr : r.matchedRoute = some rt) :
    (∃ s res upds,
      InstrumentHandlerDuration sink es elapsed r w = some (s, res, upds) ∧
        ∀ u ∈ upds, u.path = rt.pathTemplate.getD "") ∧
    ∀ r2 : Request, r2.matchedRoute = none →
      InstrumentHandlerDuration sink es elapsed r2 w = none := by
  constructor
  · refine ⟨_, _, _, InstrumentHandlerDuration_eq sink es elapsed r w rt hr, ?_⟩
    intro u hu
    simp only [List.mem_cons, List.not_mem_nil, or_false] at hu
    rcases hu with rfl | rfl | rfl | rfl <;> rfl
  · intro r2 h2
    unfold InstrumentHandlerDuration
    rw [h2]

theorem c3_path_label_witness :
    exRequest.matchedRoute = some exRoute ∧
    (∃ s res upds,
      InstrumentHandlerDuration httpSinkOps exEvents 2 exRequest emptyHttpSink =
          some (s, res, upds) ∧
        ∀ u ∈ upds, u.path = exRoute.pathTemplate.getD "") :=
  ⟨rfl, (c3_path_label httpSinkOps exEvents 2 exRequest emptyHttpSink exRoute rfl).1⟩

/-- Claim C4 counterexample: with subsystem "sub", the request-size
histogram keeps the unprefixed name "request_size_bytes" — the source
never sets `Subsystem` in `reqSizeOpts`/`resSizeOpts`. -/
theorem c4_counterexample :
    (NewPrometheusMiddleware ⟨[], "sub"⟩ ⟨[]⟩).1.reqSize.name =
        "request_size_bytes" ∧
      (NewPrometheusMiddleware ⟨[], "sub"⟩ ⟨[]⟩).1.reqSize.name ≠
        "sub_request_size_bytes" := by
  constructor
  · rfl
  · decide

/-- Claim C4 (amended): NewPrometheusMiddleware constructs four
instruments — the counter http_requests_total and the histograms
http_request_duration_seconds, request_size_bytes, response_size_bytes,
each labeled (code, method, path) — but the subsystem prefix is applied
only to the counter and the latency histogram; the two size histograms
keep their unprefixed names.  From an empty registry (no subsystem),
all four names get registered. -/
theorem c4_instruments (opts : Opts) (reg : Registry) :
    ((NewPrometheusMiddleware opts reg).1.request.name =
        buildFQName opts.subsystem requestName ∧
      (NewPrometheusMiddleware opts reg).1.latency.name =
        buildFQName opts.subsystem latencyName ∧
      (NewPrometheusMiddleware opts reg).1.reqSize.name = requestSizeName ∧
      (NewPrometheusMiddleware opts reg).1.resSize.name = responseSizeName) ∧
    ((NewPrometheusMiddleware opts reg).1.request.kind = MetricKind.counter ∧
      ∃ bs,
        (NewPrometheusMiddleware opts reg).1.latency.kind =
            MetricKind.histogram bs ∧
          (NewPrometheusMiddleware opts reg).1.reqSize.kind =
            MetricKind.histogram bs ∧
          (NewPrometheusMiddleware opts reg).1.resSize.kind =
            MetricKind.histogram bs) ∧
    (∀ i ∈ [(NewPrometheusMiddleware opts reg).1.request,
        (NewPrometheusMiddleware opts reg).1.latency,
        (NewPrometheusMiddleware opts reg).1.reqSize,
        (NewPrometheusMiddleware opts reg).1.resSize],
      i.labelNames = ["code", "method", "path"]) ∧
    (NewPrometheusMiddleware ⟨opts.buckets, ""⟩ ⟨[]⟩).2.1.names =
      [requestName, latencyName, requestSizeName, responseSizeName] := by
  refine ⟨⟨rfl, rfl, rfl, rfl⟩, ⟨rfl, _, rfl, rfl, rfl⟩, ?_, ?_⟩
  · intro i hi
    simp only [List.mem_cons, List.not_mem_nil, or_false] at hi
    rcases hi with rfl | rfl | rfl | rfl <;> rfl
  · simp [NewPrometheusMiddleware, registerCollector, buildFQName,
      requestName, latencyName, requestSizeName, responseSizeName]

/-- Claim C5 counterexample: two explicit WriteHeader calls — the
delegator records the status of the LAST one, not the first: after
WriteHeader(404); WriteHeader(500) the code label is "500". -/
theorem c5_counterexample :
    sanitizeCode ((runDelegated httpSinkOps
        [HandlerEvent.writeHeader 404, HandlerEvent.writeHeader 500]
        (freshDelegator emptyHttpSink)).1.status) = "500" ∧
      sanitizeCode ((runDelegated httpSinkOps
        [HandlerEvent.writeHeader 404, HandlerEvent.writeHeader 500]
        (freshDelegator emptyHttpSink)).1.status) ≠ "404" := by
  constructor
  · rfl
  · decide

/-- Claim C5 (amended): the status tapped by the delegator and used for
the code label is the one passed to the handler's last explicit
WriteHeader call (falling back to 200 on an implicit first write, and
to the zero value 0 otherwise), and the code label is that status'
decimal string representation. -/
theorem c5_last_writeHeader_wins {S : Type} (sink : Sink S)
    (es : List HandlerEvent) (w : S) :
    (runDelegated sink es (freshDelegator w)).1.status = recordedStatus es ∧
      sanitizeCode ((runDelegated sink es (freshDelegator w)).1.status) =
        toString (recordedStatus es) := by
  have h := runDelegated_status_fresh sink es (freshDelegator w) rfl
  exact ⟨h, congrArg sanitizeCode h⟩

/-- Claim C6 counterexample: a content-length of -2 (negative but not
-1) IS added by the source — the guard only excludes -1.  For this
request the remaining terms sum to 14, but the function returns 12. -/
theorem c6_counterexample :
    computeApproximateRequestSize negativeCLRequest = 12 ∧
      computeApproximateRequestSize negativeCLRequest ≠ 14 := by
  constructor
  · decide
  · decide

/-- Claim C6 (amended): the value observed into the request-size
histogram equals path length + method length + proto length + header
names and values + host length, plus the content-length term exactly
when ContentLength differs from -1 (so a negative content-length other
than -1 is also added). -/
theorem c6_request_size {S : Type} (sink : Sink S) (es : List HandlerEvent)
    (elapsed : Int) (r : Request) (w : S) (rt : Route)
    (hr : r.matchedRoute = some rt) :
    computeApproximateRequestSize r = approximateRequestSizeSpec r ∧
    ∃ s res upds,
      InstrumentHandlerDuration sink es elapsed r w = some (s, res, upds) ∧
        (⟨requestSizeName,
          sanitizeCode (runDelegated sink es (freshDelegator w)).1.status,
          sanitizeMethod r.method, rt.pathTemplate.getD "",
          some (approximateRequestSizeSpec r)⟩ : MetricUpdate) ∈ upds := by
  refine ⟨computeApproximateRequestSize_eq_spec r,
    _, _, _, InstrumentHandlerDuration_eq sink es elapsed r w rt hr, ?_⟩
  rw [← computeApproximateRequestSize_eq_spec r]
  exact List.mem_cons_of_mem _ (List.mem_cons_of_mem _ (List.mem_cons_self _ _))

theorem c6_request_size_witness :
    metricsRequest.matchedRoute = some ⟨some "/metrics"⟩ ∧
    (computeApproximateRequestSize metricsRequest =
        approximateRequestSizeSpec metricsRequest ∧
      ∃ s res upds,
        InstrumentHandlerDuration httpSinkOps [] 1 metricsRequest emptyHttpSink =
            some (s, res, upds) ∧
          (⟨requestSizeName,
            sanitizeCode ((runDelegated httpSinkOps []
              (freshDelegator emptyHttpSink)).1.status),
            sanitizeMethod metricsRequest.method,
            (Route.mk (some "/metrics")).pathTemplate.getD "",
            some (approximateRequestSizeSpec metricsRequest)⟩ : MetricUpdate) ∈ upds) :=
  ⟨rfl, c6_request_size httpSinkOps [] 1 metricsRequest emptyHttpSink
    ⟨some "/metrics"⟩ rfl⟩

/-- Claim C7: the value observed into the response-size histogram is
the sum, across all of the inner handler's write calls, of the byte
counts the underlying sink reported for them. -/
theorem c7_response_size {S : Type} (sink : Sink S) (es : List HandlerEvent)
    (elapsed : Int) (r : Request) (w : S) (rt : Route)
    (hr : r.matchedRoute = some rt) :
    ∃ s res upds,
      InstrumentHandlerDuration sink es elapsed r w = some (s, res, upds) ∧
        (⟨responseSizeName,
          sanitizeCode (runDelegated sink es (freshDelegator w)).1.status,
          sanitizeMethod r.method, rt.pathTemplate.getD "",
          some (Int.ofNat ((res.map Prod.fst).sum))⟩ : MetricUpdate) ∈ upds := by
  refine ⟨_, _, _, InstrumentHandlerDuration_eq sink es elapsed r w rt hr, ?_⟩
  have hw : Int.ofNat
      (((runDelegated sink es (freshDelegator w)).2.map Prod.fst).sum) =
      Int.ofNat ((runDelegated sink es (freshDelegator w)).1.written) := by
    rw [runDelegated_written sink es (freshDelegator w)]
    simp [freshDelegator]
  rw [hw]
  exact List.mem_cons_of_mem _ (List.mem_cons_of_mem _
    (List.mem_cons_of_mem _ (List.mem_cons_self _ _)))

/-- Three writes reporting 10, 20 and 5 bytes: observed value 35. -/
def threeWrites : List HandlerEvent :=
  [HandlerEvent.write (List.replicate 10 0),
   HandlerEvent.write (List.replicate 20 0),
   HandlerEvent.write (List.replicate 5 0)]

theorem c7_response_size_witness :
    exRequest.matchedRoute = some exRoute ∧
    ((runDelegated httpSinkOps threeWrites
        (freshDelegator emptyHttpSink)).2.map Prod.fst).sum = 35 ∧
    ∃ s res upds,
      InstrumentHandlerDuration httpSinkOps threeWrites 1 exRequest
          emptyHttpSink = some (s, res, upds) ∧
        (⟨responseSizeName,
          sanitizeCode ((runDelegated httpSinkOps threeWrites
            (freshDelegator emptyHttpSink)).1.status),
          sanitizeMethod exRequest.method, exRoute.pathTemplate.getD "",
          some (Int.ofNat ((res.map Prod.fst).sum))⟩ : MetricUpdate) ∈ upds :=
  ⟨rfl, by decide,
   c7_response_size httpSinkOps threeWrites 1 exRequest emptyHttpSink exRoute rfl⟩

/-- Claim C8: registering against a registry that already holds all
four names does not abort: one log line per instrument is emitted, the
registry is left unchanged, and the returned middleware value is the
same one a fresh registry would give — construction always completes. -/
theorem c8_duplicate_registration (opts : Opts) (reg : Registry)
    (h1 : buildFQName opts.subsystem requestName ∈ reg.names)
    (h2 : buildFQName opts.subsystem latencyName ∈ reg.names)
    (h3 : requestSizeName ∈ reg.names)
    (h4 : responseSizeName ∈ reg.names) :
    (NewPrometheusMiddleware opts reg).1 =
        (NewPrometheusMiddleware opts ⟨[]⟩).1 ∧
      (NewPrometheusMiddleware opts reg).2.1 = reg ∧
      (NewPrometheusMiddleware opts reg).2.2.length = 4 := by
  refine ⟨rfl, ?_, ?_⟩ <;>
    simp [NewPrometheusMiddleware, registerCollector, h1, h2, h3, h4]

def dupOpts : Opts := ⟨[], "sub"⟩

/-- The registry state after one construction with `dupOpts`. -/
def dupRegistry : Registry := (NewPrometheusMiddleware dupOpts ⟨[]⟩).2.1

theorem c8_duplicate_registration_witness :
    buildFQName dupOpts.subsystem requestName ∈ dupRegistry.names ∧
    buildFQName dupOpts.subsystem latencyName ∈ dupRegistry.names ∧
    requestSizeName ∈ dupRegistry.names ∧
    responseSizeName ∈ dupRegistry.names ∧
    ((NewPrometheusMiddleware dupOpts dupRegistry).1 =
        (NewPrometheusMiddleware dupOpts ⟨[]⟩).1 ∧
      (NewPrometheusMiddleware dupOpts dupRegistry).2.1 = dupRegistry ∧
      (NewPrometheusMiddleware dupOpts dupRegistry).2.2.length = 4) :=
  ⟨by decide, by decide, by decide, by decide,
   c8_duplicate_registration dupOpts dupRegistry
     (by decide) (by decide) (by decide) (by decide)⟩

/-- Claim C9 counterexample: for a request with no matched route the
wrapper panics on the nil route before touching any instrument, so it
is not the case that all four instruments are updated for every
request. -/
theorem c9_counterexample :
    InstrumentHandlerDuration httpSinkOps [HandlerEvent.write [104]] 3
      noRouteRequest2 emptyHttpSink = none := rfl

/-- Claim C9 (amended): for every request whose route resolves, all
four instruments are updated with the same (code, method, path) triple
— the counter incremented once (no observed value) and each histogram
observed exactly once — with the method label the lowercased request
method; and the three histograms are constructed with the same bucket
list, which is dflBuckets = [0.3, 1, 2.5, 5] when the configured
buckets are empty. -/
theorem c9_all_four_updated {S : Type} (sink : Sink S) (opts : Opts)
    (reg : Registry) (es : List HandlerEvent) (elapsed : Int) (r : Request)
    (w : S) (rt : Route) (hr : r.matchedRoute = some rt) :
    (∃ s res code path,
      InstrumentHandlerDuration sink es elapsed r w = some (s, res,
        [ ⟨requestName, code, r.method.toLower, path, none⟩,
          ⟨latencyName, code, r.method.toLower, path, some elapsed⟩,
          ⟨requestSizeName, code, r.method.toLower, path,
            some (computeApproximateRequestSize r)⟩,
          ⟨responseSizeName, code, r.method.toLower, path,
            some (Int.ofNat
              (runDelegated sink es (freshDelegator w)).1.written)⟩ ]) ∧
      sanitizeMethod r.method = r.method.toLower) ∧
    (∃ bs,
      (NewPrometheusMiddleware opts reg).1.latency.kind =
          MetricKind.histogram bs ∧
        (NewPrometheusMiddleware opts reg).1.reqSize.kind =
          MetricKind.histogram bs ∧
        (NewPrometheusMiddleware opts reg).1.resSize.kind =
          MetricKind.histogram bs ∧
        bs = if opts.buckets.isEmpty then dflBuckets else opts.buckets) := by
  exact ⟨⟨_, _, _, _, InstrumentHandlerDuration_eq sink es elapsed r w rt hr,
    rfl⟩, _, rfl, rfl, rfl, rfl⟩

theorem c9_all_four_updated_witness :
    exRequest.matchedRoute = some exRoute ∧
    ((∃ s res code path,
      InstrumentHandlerDuration httpSinkOps exEvents 4 exRequest
          emptyHttpSink = some (s, res,
        [ ⟨requestName, code, exRequest.method.toLower, path, none⟩,
          ⟨latencyName, code, exRequest.method.toLower, path, some 4⟩,
          ⟨requestSizeName, code, exRequest.method.toLower, path,
            some (computeApproximateRequestSize exRequest)⟩,
          ⟨responseSizeName, code, exRequest.method.toLower, path,
            some (Int.ofNat (runDelegated httpSinkOps exEvents
              (freshDelegator emptyHttpSink)).1.written)⟩ ]) ∧
      sanitizeMethod exRequest.method = exRequest.method.toLower) ∧
    (∃ bs,
      (NewPrometheusMiddleware ⟨[], ""⟩ ⟨[]⟩).1.latency.kind =
          MetricKind.histogram bs ∧
        (NewPrometheusMiddleware ⟨[], ""⟩ ⟨[]⟩).1.reqSize.kind =
          MetricKind.histogram bs ∧
        (NewPrometheusMiddleware ⟨[], ""⟩ ⟨[]⟩).1.resSize.kind =
          MetricKind.histogram bs ∧
        bs = if ([] : List Rat).isEmpty then dflBuckets else [])) :=
  ⟨rfl, c9_all_four_updated httpSinkOps ⟨[], ""⟩ ⟨[]⟩ exEvents 4 exRequest
    emptyHttpSink exRoute rfl⟩

/-- Claim C10: computeApproximateRequestSize is total on any request,
and when the URL is nil the path term contributes 0: the result is the
sum of the remaining terms (method, proto, headers, host, and the
content-length term when it differs from -1). -/
theorem c10_nil_url (r : Request) (h : r.url = none) :
    computeApproximateRequestSize r =
      (r.method.length : Int) + r.proto.length + headerLen r.header +
        r.host.length +
        (if r.contentLength ≠ -1 then r.contentLength else 0) := by
  rw [computeApproximateRequestSize_eq_spec]
  simp only [approximateRequestSizeSpec, h]
  ring

/-- A request whose URL is nil (possible for server requests built by
hand, e.g. in tests). -/
def nilURLRequest : Request :=
  ⟨"PUT", none, "HTTP/1.1", [("A", ["b"])], "hst", 9, none⟩

theorem c10_nil_url_witness :
    nilURLRequest.url = none ∧
    computeApproximateRequestSize nilURLRequest =
      (nilURLRequest.method.length : Int) + nilURLRequest.proto.length +
        headerLen nilURLRequest.header + nilURLRequest.host.length +
        (if nilURLRequest.contentLength ≠ -1 then nilURLRequest.contentLength
          else 0) :=
  ⟨rfl, c10_nil_url nilURLRequest rfl⟩

end PromMW
